import Mathlib

/-!
Verification of the `logger` package (src/ZapLog.go): a gin middleware that
captures request/response data and a zap logger initializer.  The Go code is
shallowly embedded below; claims about it are settled as theorems at the end.
-/

namespace ZapLog

/-! ## JSON values (model of what encoding/json parses) -/

/-- A parsed JSON value.  Numbers keep their source text: no claim observes
numeric re-formatting, so the float64 round-trip of encoding/json is not
modelled. -/
inductive JVal where
  | null
  | bool (b : Bool)
  | num (s : String)
  | str (s : String)
  | arr (elems : List JVal)
  | obj (fields : List (String × JVal))
  deriving Repr

/-- `true` iff the top-level value is a JSON object. -/
def JVal.isObj : JVal → Bool
  | .obj _ => true
  | _ => false

/-- `true` iff the value is JSON `null`. -/
def JVal.isNull : JVal → Bool
  | .null => true
  | _ => false

/-- The `\x7b` character. -/
def lbrace : Char := Char.ofNat 123

/-- The `\x7d` character. -/
def rbrace : Char := Char.ofNat 125

/-- The `"` character. -/
def dquote : Char := Char.ofNat 34

/-- The backslash character. -/
def bslash : Char := Char.ofNat 92

/-- JSON whitespace accepted by encoding/json. -/
def isJsonWs (c : Char) : Bool :=
  c = ' ' || c = '\t' || c = '\n' || c = '\r'

/-- Drop leading JSON whitespace. -/
def skipWs : List Char → List Char
  | [] => []
  | c :: cs => if isJsonWs c then skipWs cs else c :: cs

/-- Consume an expected literal character sequence. -/
def expectChars : List Char → List Char → Option (List Char)
  | [], cs => some cs
  | _ :: _, [] => none
  | e :: es, c :: cs => if c = e then expectChars es cs else none

/-- Value of one hexadecimal digit. -/
def hexVal (c : Char) : Option Nat :=
  if '0' ≤ c ∧ c ≤ '9' then some (c.toNat - 48)
  else if 'a' ≤ c ∧ c ≤ 'f' then some (c.toNat - 87)
  else if 'A' ≤ c ∧ c ≤ 'F' then some (c.toNat - 70)
  else none

/-- Translation of a single-character JSON escape. -/
def escChar (c : Char) : Option Char :=
  if c = dquote then some dquote
  else if c = bslash then some bslash
  else if c = '/' then some '/'
  else if c = 'b' then some (Char.ofNat 8)
  else if c = 'f' then some (Char.ofNat 12)
  else if c = 'n' then some '\n'
  else if c = 'r' then some '\r'
  else if c = 't' then some '\t'
  else none

/-- Parse the body of a JSON string literal (after the opening quote),
returning the decoded string and the remaining input. -/
def parseStrChars (acc : List Char) : List Char → Option (String × List Char)
  | [] => none
  | c :: cs =>
    if c = dquote then some (String.mk acc.reverse, cs)
    else if c = bslash then
      match cs with
      | [] => none
      | e :: cs2 =>
        match escChar e with
        | some ec => parseStrChars (ec :: acc) cs2
        | none =>
          if e = 'u' then
            match cs2 with
            | h1 :: h2 :: h3 :: h4 :: cs3 =>
              match hexVal h1, hexVal h2, hexVal h3, hexVal h4 with
              | some a, some b, some c3, some d =>
                  parseStrChars (Char.ofNat (((a * 16 + b) * 16 + c3) * 16 + d) :: acc) cs3
              | _, _, _, _ => none
            | _ => none
          else none
    else parseStrChars (c :: acc) cs

/-- Take a maximal run of decimal digits. -/
def takeDigits (cs : List Char) : List Char × List Char :=
  (cs.takeWhile (fun c => '0' ≤ c && c ≤ '9'), cs.dropWhile (fun c => '0' ≤ c && c ≤ '9'))

/-- Parse the integer part of a JSON number per the Go grammar:
`0`, or a nonzero digit followed by digits. -/
def parseIntPart (cs : List Char) : Option (List Char × List Char) :=
  match cs with
  | '0' :: rest => some (['0'], rest)
  | c :: _ =>
    if '1' ≤ c ∧ c ≤ '9' then
      let (ds, rest) := takeDigits cs
      some (ds, rest)
    else none
  | [] => none

/-- Parse the optional fraction part (`.` followed by at least one digit). -/
def parseFracPart (cs : List Char) : Option (List Char × List Char) :=
  match cs with
  | '.' :: rest =>
    let (ds, rest2) := takeDigits rest
    if ds = [] then none else some ('.' :: ds, rest2)
  | _ => some ([], cs)

/-- Parse the optional exponent part (`e`/`E`, optional sign, digits). -/
def parseExpPart (cs : List Char) : Option (List Char × List Char) :=
  match cs with
  | c :: rest =>
    if c = 'e' ∨ c = 'E' then
      let (sgn, rest2) :=
        match rest with
        | s :: r2 => if s = '+' ∨ s = '-' then ([s], r2) else (([] : List Char), rest)
        | [] => (([] : List Char), rest)
      let (ds, rest3) := takeDigits rest2
      if ds = [] then none else some (c :: (sgn ++ ds), rest3)
    else some ([], cs)
  | [] => some ([], cs)

/-- Parse a JSON number, returning its source text. -/
def parseNumber (cs : List Char) : Option (JVal × List Char) :=
  let (sgn, cs1) :=
    match cs with
    | '-' :: r => ((['-'] : List Char), r)
    | _ => (([] : List Char), cs)
  match parseIntPart cs1 with
  | none => none
  | some (ip, cs2) =>
    match parseFracPart cs2 with
    | none => none
    | some (fp, cs3) =>
      match parseExpPart cs3 with
      | none => none
      | some (ep, cs4) => some (.num (String.mk (sgn ++ ip ++ fp ++ ep)), cs4)

mutual

/-- Fueled recursive-descent parse of one JSON value. -/
def parseVal (fuel : Nat) (cs : List Char) : Option (JVal × List Char) :=
  match fuel with
  | 0 => none
  | fuel + 1 =>
    match cs with
    | [] => none
    | c :: rest =>
      if c = 'n' then (expectChars ['u', 'l', 'l'] rest).map (fun r => (.null, r))
      else if c = 't' then (expectChars ['r', 'u', 'e'] rest).map (fun r => (.bool true, r))
      else if c = 'f' then (expectChars ['a', 'l', 's', 'e'] rest).map (fun r => (.bool false, r))
      else if c = dquote then (parseStrChars [] rest).map (fun p => (.str p.1, p.2))
      else if c = '[' then
        match skipWs rest with
        | ']' :: r2 => some (.arr [], r2)
        | cs2 => (parseArrItems fuel cs2).map (fun p => (.arr p.1, p.2))
      else if c = lbrace then
        match skipWs rest with
        | c2 :: r2 => if c2 = rbrace then some (.obj [], r2)
                      else (parseObjItems fuel (c2 :: r2)).map (fun p => (.obj p.1, p.2))
        | [] => none
      else parseNumber cs

/-- Parse a comma-separated list of array elements up to `]`. -/
def parseArrItems (fuel : Nat) (cs : List Char) : Option (List JVal × List Char) :=
  match fuel with
  | 0 => none
  | fuel + 1 =>
    match parseVal fuel cs with
    | none => none
    | some (v, rest) =>
      match skipWs rest with
      | ',' :: r2 => (parseArrItems fuel (skipWs r2)).map (fun p => (v :: p.1, p.2))
      | ']' :: r2 => some ([v], r2)
      | _ => none

/-- Parse a comma-separated list of object members up to the closing brace. -/
def parseObjItems (fuel : Nat) (cs : List Char) : Option (List (String × JVal) × List Char) :=
  match fuel with
  | 0 => none
  | fuel + 1 =>
    match cs with
    | c :: rest =>
      if c = dquote then
        match parseStrChars [] rest with
        | none => none
        | some (k, rest2) =>
          match skipWs rest2 with
          | ':' :: rest3 =>
            match parseVal fuel (skipWs rest3) with
            | none => none
            | some (v, rest4) =>
              match skipWs rest4 with
              | ',' :: r2 =>
                match skipWs r2 with
                | c2 :: r3 =>
                  if c2 = dquote then
                    (parseObjItems fuel (c2 :: r3)).map (fun p => ((k, v) :: p.1, p.2))
                  else none
                | [] => none
              | c2 :: r2 => if c2 = rbrace then some ([(k, v)], r2) else none
              | [] => none
          | _ => none
      else none
    | [] => none

end

/-- Parse a complete JSON document: one value, with only whitespace around it,
as `json.Unmarshal` requires. -/
def parseJsonTop (s : String) : Option JVal :=
  match parseVal (s.length + 1) (skipWs s.data) with
  | some (v, rest) => if skipWs rest = [] then some v else none
  | none => none

/-! ## Marshalling (model of json.Marshal on the decoded value) -/

/-- Insert a keyed entry into a key-sorted association list. -/
def insertByKey {α : Type} (p : String × α) : List (String × α) → List (String × α)
  | [] => [p]
  | q :: qs => if p.1 ≤ q.1 then p :: q :: qs else q :: insertByKey p qs

/-- Sort an association list by key (Go marshals map keys in sorted order). -/
def sortByKey {α : Type} (l : List (String × α)) : List (String × α) :=
  l.foldr insertByKey []

/-- Set a key in an association list, replacing an existing entry
(Go map semantics: a duplicate JSON object key keeps the last value). -/
def assocSet {α : Type} (k : String) (v : α) : List (String × α) → List (String × α)
  | [] => [(k, v)]
  | (k0, v0) :: rest => if k0 = k then (k, v) :: rest else (k0, v0) :: assocSet k v rest

/-- Collapse duplicate keys keeping the last occurrence. -/
def dedupKeys {α : Type} (l : List (String × α)) : List (String × α) :=
  l.foldl (fun acc p => assocSet p.1 p.2 acc) []

mutual

/-- Normalization performed by decoding into `map[string]interface\x7b\x7d` /
`[]interface\x7b\x7d`: object keys are deduplicated (last wins) and sorted,
recursively. -/
def normVal : JVal → JVal
  | .obj kvs => .obj (sortByKey (dedupKeys (normKvs kvs)))
  | .arr xs => .arr (normArr xs)
  | .null => .null
  | .bool b => .bool b
  | .num s => .num s
  | .str s => .str s

/-- Normalize every element of an array. -/
def normArr : List JVal → List JVal
  | [] => []
  | x :: xs => normVal x :: normArr xs

/-- Normalize every value of an object member list. -/
def normKvs : List (String × JVal) → List (String × JVal)
  | [] => []
  | (k, v) :: rest => (k, normVal v) :: normKvs rest

end

/-- Escape a string for JSON output.  (Go additionally escapes control and
HTML characters; no claim observes those bytes.) -/
def escapeStr (s : String) : String :=
  String.mk (s.data.flatMap (fun c =>
    if c = dquote then [bslash, dquote]
    else if c = bslash then [bslash, bslash]
    else if c = '\n' then [bslash, 'n']
    else if c = '\r' then [bslash, 'r']
    else if c = '\t' then [bslash, 't']
    else [c]))

/-- A one-character string holding the opening brace. -/
def lbraceS : String := String.mk [lbrace]

/-- A one-character string holding the closing brace. -/
def rbraceS : String := String.mk [rbrace]

/-- A one-character string holding the double quote. -/
def dquoteS : String := String.mk [dquote]

mutual

/-- Serialize a JSON value the way `json.Marshal` prints the decoded
generic value. -/
def marshalVal : JVal → String
  | .null => "null"
  | .bool true => "true"
  | .bool false => "false"
  | .num s => s
  | .str s => dquoteS ++ escapeStr s ++ dquoteS
  | .arr xs => "[" ++ marshalArr xs ++ "]"
  | .obj kvs => lbraceS ++ marshalKvs kvs ++ rbraceS

/-- Serialize array elements, comma separated. -/
def marshalArr : List JVal → String
  | [] => ""
  | [x] => marshalVal x
  | x :: y :: xs => marshalVal x ++ "," ++ marshalArr (y :: xs)

/-- Serialize object members, comma separated. -/
def marshalKvs : List (String × JVal) → String
  | [] => ""
  | [(k, v)] => dquoteS ++ escapeStr k ++ dquoteS ++ ":" ++ marshalVal v
  | (k, v) :: q :: rest =>
      dquoteS ++ escapeStr k ++ dquoteS ++ ":" ++ marshalVal v ++ "," ++ marshalKvs (q :: rest)

end

/-- Model of `json.Unmarshal(bodyBytes, &m)` with
`var m map[string]interface\x7b\x7d`:
it errors unless the document's top-level value is an object (filling the map)
or `null` (leaving `m` as the nil map, modelled by the inner `none`). -/
def goUnmarshalMap (s : String) : Option (Option (List (String × JVal))) :=
  match parseJsonTop s with
  | some (.obj kvs) => some (some kvs)
  | some .null => some none
  | some _ => none
  | none => none

/-- Model of `json.Marshal(m)`: the nil map prints `null`; otherwise the
object is printed with normalized (deduplicated, sorted) keys. -/
def goMarshalMap : Option (List (String × JVal)) → String
  | none => "null"
  | some kvs => marshalVal (normVal (.obj kvs))

/-! ## HTTP request model and the request-capture phase of HttpLogger -/

/-- An inbound HTTP request as the interceptor sees it.  `headers` holds the
canonical-form header keys (net/http stores keys canonicalized); `body` is the
byte content of the body stream; `query` the decoded query parameters in
order. -/
structure Request where
  method : String
  urlPath : String
  query : List (String × String)
  headers : List (String × String)
  body : String

/-- `http.Header.Get`: first value for the key, `""` when absent. -/
def headerGet : List (String × String) → String → String
  | [], _ => ""
  | p :: rest, k => if p.1 = k then p.2 else headerGet rest k

/-- gin's `filterFlags`: the content-type header truncated at the first
space or semicolon. -/
def filterFlags (s : String) : String :=
  String.mk (s.data.takeWhile (fun c => !(c = ' ' || c = ';')))

/-- gin's `c.ContentType()`. -/
def contentType (r : Request) : String :=
  filterFlags (headerGet r.headers "Content-Type")

/-- `c.Request.Header.Get("X-Request-Id")` at the top of `HttpLogger`. -/
def requestIdOf (r : Request) : String :=
  headerGet r.headers "X-Request-Id"

/-- The dynamic value stored in the `reqParams interface\x7b\x7d` variable:
Go `nil`, a string, or a `url.Values`. -/
inductive ReqParams where
  | nilv
  | str (s : String)
  | values (v : List (String × List String))

/-- Split a character list at every occurrence of `sep`. -/
def splitOnChar (sep : Char) : List Char → List (List Char)
  | [] => [[]]
  | c :: rest =>
    match splitOnChar sep rest with
    | [] => [[c]]
    | g :: gs => if c = sep then [] :: g :: gs else (c :: g) :: gs

/-- Split off the part before the first `=`; the remainder (with any further
`=` kept) is the value, as `strings.Cut` does in `url.ParseQuery`. -/
def cutEq (cs : List Char) : String × String :=
  (String.mk (cs.takeWhile (fun c => c ≠ '=')),
   match cs.dropWhile (fun c => c ≠ '=') with
   | [] => ""
   | _ :: rest => String.mk rest)

/-- Parse an `a=1&b=2` query/body string into key-value pairs.
(Percent-decoding is not modelled; no claim observes decoded characters.) -/
def parseQueryString (s : String) : List (String × String) :=
  if s = "" then [] else (splitOnChar '&' s.data).map cutEq

/-- Append a value to a key's slice in a `url.Values`. -/
def addValue (vs : List (String × List String)) (k v : String) :
    List (String × List String) :=
  match vs with
  | [] => [(k, [v])]
  | (k0, vals) :: rest =>
    if k0 = k then (k0, vals ++ [v]) :: rest else (k0, vals) :: addValue rest k v

/-- Build a `url.Values` from ordered key-value pairs. -/
def valuesOf (pairs : List (String × String)) : List (String × List String) :=
  pairs.foldl (fun acc p => addValue acc p.1 p.2) []

/-- `c.Request.ParseForm()` (net/http): when the method is POST/PUT/PATCH and
the content type is `application/x-www-form-urlencoded`, the body is read to
EOF (consumed, not restored) and parsed; `Form` merges the body fields with
the query parameters.  For other methods or content types (including
multipart) the body is not touched and `Form` holds the query parameters. -/
def parseForm (r : Request) : List (String × List String) × Request :=
  if (r.method = "POST" || r.method = "PUT" || r.method = "PATCH")
      && contentType r = "application/x-www-form-urlencoded" then
    (valuesOf (parseQueryString r.body ++ r.query), { r with body := "" })
  else
    (valuesOf r.query, r)

/-- The request-capture phase of `HttpLogger` (ZapLog.go lines 80-106): the
content-type switch that fills `reqParams` and its effect on the request
body stream.  In the JSON case `io.ReadAll` consumes the body, normalization
is attempted, and the read bytes are put back
(`c.Request.Body = io.NopCloser(bytes.NewBuffer(bodyBytes))`). -/
def captureRequest (r : Request) : ReqParams × Request :=
  if contentType r = "application/json" then
    let bodyBytes := r.body
    let p :=
      if bodyBytes.length > 0 then
        match goUnmarshalMap bodyBytes with
        | some m => ReqParams.str (goMarshalMap m)
        | none => ReqParams.nilv
      else ReqParams.nilv
    (p, { r with body := bodyBytes })
  else if contentType r = "application/x-www-form-urlencoded"
      || contentType r = "multipart/form-data" then
    (ReqParams.values (parseForm r).1, (parseForm r).2)
  else if contentType r = "application/octet-stream" then
    (ReqParams.str "[BINARY DATA]", r)
  else
    if r.method = "GET" && !r.query.isEmpty then
      (ReqParams.values (valuesOf r.query), r)
    else
      (ReqParams.str ("[UNSUPPORTED CONTENT TYPE: " ++ contentType r ++ "]"), r)

/-! ## Response side -/

/-- `strings.SplitN(header, ";", 2)[0]`: the emitted content type up to the
first semicolon. -/
def respCT (header : String) : String :=
  String.mk (header.data.takeWhile (fun c => c ≠ ';'))

/-- The response-data switch of `HttpLogger` (ZapLog.go lines 132-143). -/
def respData (ct body : String) : String :=
  if ct = "application/json" then body
  else if ct = "application/x-www-form-urlencoded" || ct = "multipart/form-data" then body
  else if ct = "audio/mpeg" || ct = "text/html" || ct = "application/octet-stream" then
    "[BINARY DATA]"
  else "[UNSUPPORTED CONTENT TYPE: " ++ ct ++ "]"

/-- The spec's three-way body policy categories. -/
inductive BodyPolicy where
  | passthrough
  | binary
  | unsupported
  deriving DecidableEq

/-- The policy category the request-side content-type switch assigns
(ZapLog.go lines 81-106): json and the form types are captured/passed
through, octet-stream gets the binary placeholder, everything else falls to
the default (unsupported placeholder) branch. -/
def reqPolicy (ct : String) : BodyPolicy :=
  if ct = "application/json" then .passthrough
  else if ct = "application/x-www-form-urlencoded" then .passthrough
  else if ct = "multipart/form-data" then .passthrough
  else if ct = "application/octet-stream" then .binary
  else .unsupported

/-- The policy category the response-side switch assigns
(ZapLog.go lines 132-143). -/
def respPolicy (ct : String) : BodyPolicy :=
  if ct = "application/json" then .passthrough
  else if ct = "application/x-www-form-urlencoded" then .passthrough
  else if ct = "multipart/form-data" then .passthrough
  else if ct = "audio/mpeg" then .binary
  else if ct = "text/html" then .binary
  else if ct = "application/octet-stream" then .binary
  else .unsupported

/-! ## Log-line formatting and the zap logger model -/

/-- Go `fmt` of a `url.Values` (`map[string][]string`): keys sorted, each as
`key:[v1 v2]`. -/
def formatValues (v : List (String × List String)) : String :=
  "map[" ++
    String.intercalate " "
      ((sortByKey v).map (fun p => p.1 ++ ":[" ++ String.intercalate " " p.2 ++ "]")) ++
  "]"

/-- `%v` of the `reqParams interface\x7b\x7d` variable. -/
def formatParams : ReqParams → String
  | .nilv => "<nil>"
  | .str s => s
  | .values v => formatValues v

/-- The `requestLog` string built at ZapLog.go lines 109-118. -/
def requestLogLine (requestId handlerName httpPath method : String)
    (reqParams : ReqParams) (clientIP : String) : String :=
  "X-Request-Id:" ++ requestId ++ "\n" ++
  "---------------------------请求开始-----------------------------\n" ++
  "CLASS METHOD: " ++ handlerName ++ "\n" ++
  "请求地址: " ++ httpPath ++ "\n" ++
  "HTTP METHOD: " ++ method ++ "\n" ++
  "请求参数: " ++ formatParams reqParams ++ "\n" ++
  "IP: " ++ clientIP

/-- The `responseLog` string built at ZapLog.go lines 146-155. -/
def responseLogLine (requestId : String) (statusCode : Nat)
    (errorMessage responseData : String) (respSize : Nat) (cost : String) : String :=
  "X-Request-Id:" ++ requestId ++ "\n" ++
  "HTTP STATUS: " ++ toString statusCode ++ "\n" ++
  "Error Messages: " ++ errorMessage ++ "\n" ++
  "响应数据: " ++ responseData ++ "\n" ++
  "响应大小: " ++ toString respSize ++ "\n" ++
  "耗时: " ++ cost ++ "\n" ++
  "---------------------------请求结束-----------------------------"

/-- A `*zap.SugaredLogger` value, reduced to the lines it has emitted. -/
structure SugaredLogger where
  logged : List String

/-- A Go runtime panic relevant to this code. -/
inductive GoPanic where
  | nilPointerDereference
  deriving DecidableEq

/-- A call of a method on the global `SugarLogger` handle
(`*zap.SugaredLogger`): when the handle is Go `nil` the method body
dereferences the nil receiver (`s.base`) and panics; otherwise the line is
emitted. -/
def sugarLog (sugar : Option SugaredLogger) (line : String) :
    Except GoPanic SugaredLogger :=
  match sugar with
  | none => .error .nilPointerDereference
  | some s => .ok ⟨s.logged ++ [line]⟩

/-- Modelled from the spec: `NewResponseRecorder` is not under src/.  Per §3
and §9 it is a response-writer wrapper that mirrors every write into a buffer
and retains the last status code while exposing the headers the handler set.
This structure is the recorder's observable state after `c.Next()` returns:
the emitted `Content-Type` header, the buffered body bytes, and the status. -/
structure RecorderResult where
  contentTypeHeader : String
  body : String
  status : Nat

/-- `InitLogger` (ZapLog.go lines 22-38), with the filesystem outcome of
`ensureDir` as a parameter (`some e` = directory creation failed with error
text `e`).  On failure the code calls `SugarLogger.Errorf` on the global
handle: if that handle is still Go `nil` (first initialization) the call
panics and initialization aborts; otherwise the message is reported and the
function falls through to build the cores and assign a fresh
`SugarLogger`.  The result is the newly assigned handle together with the
messages reported during initialization. -/
def InitLogger (mkdirErr : Option String) (sugar : Option SugaredLogger) :
    Except GoPanic (SugaredLogger × List String) :=
  match mkdirErr with
  | some e =>
    match sugarLog sugar ("日志文件创建失败: " ++ e) with
    | .error p => .error p
    | .ok _ => .ok (⟨[]⟩, ["日志文件创建失败: " ++ e])
  | none => .ok (⟨[]⟩, [])

/-- One run of the `HttpLogger` middleware around a handler (ZapLog.go
lines 68-157).  The handler's observable effect is the recorder state `rec`
and gin's private error string `errorMessage`; `cost` stands for the
formatted wall-clock duration (real time is outside the embedding);
`handlerName` and `clientIP` are read from the framework.  The final step
calls `Infof` on the global `SugarLogger` handle. -/
def runHttpLogger (sugar : Option SugaredLogger) (r : Request)
    (handlerName clientIP : String) (rec : RecorderResult)
    (errorMessage cost : String) : Except GoPanic SugaredLogger :=
  let requestId := requestIdOf r
  let reqParams := (captureRequest r).1
  let requestLog := requestLogLine requestId handlerName r.urlPath r.method reqParams clientIP
  let responseData := respData (respCT rec.contentTypeHeader) rec.body
  let responseLog :=
    responseLogLine requestId rec.status errorMessage responseData rec.body.length cost
  sugarLog sugar (requestLog ++ "\n" ++ responseLog)

/-! ## Grounding lemmas tying the policy tables to the two switches -/

/-- The response switch is exactly the response policy table applied to the
emitted content type. -/
theorem respData_eq_policy (ct body : String) :
    respData ct body =
      match respPolicy ct with
      | .passthrough => body
      | .binary => "[BINARY DATA]"
      | .unsupported => "[UNSUPPORTED CONTENT TYPE: " ++ ct ++ "]" := by
  unfold respData respPolicy
  split_ifs <;> simp_all

/-- When the request policy table says binary, the request switch stores the
binary placeholder. -/
theorem captureRequest_binary_of_policy (r : Request)
    (hp : reqPolicy (contentType r) = .binary) :
    (captureRequest r).1 = ReqParams.str "[BINARY DATA]" := by
  unfold reqPolicy at hp
  split_ifs at hp
  simp_all [captureRequest]

/-- When the request policy table says unsupported and the GET-query escape
hatch does not apply, the request switch stores the unsupported
placeholder. -/
theorem captureRequest_unsupported_of_policy (r : Request)
    (hp : reqPolicy (contentType r) = .unsupported)
    (hm : ¬(r.method = "GET" ∧ r.query ≠ [])) :
    (captureRequest r).1 =
      ReqParams.str ("[UNSUPPORTED CONTENT TYPE: " ++ contentType r ++ "]") := by
  unfold reqPolicy at hp
  split_ifs at hp
  simp_all [captureRequest]
  rw [if_neg (by tauto)]

/-- In the JSON branch, an empty body or a failed decode leaves `reqParams`
nil while the body is still restored. -/
theorem captureRequest_json_skip (r : Request)
    (hct : contentType r = "application/json")
    (h : r.body = "" ∨ goUnmarshalMap r.body = none) :
    (captureRequest r).1 = ReqParams.nilv ∧ (captureRequest r).2.body = r.body := by
  rcases h with h | h <;> simp [captureRequest, hct, h]

/-- `headerGet` returns the empty string when no entry has the key. -/
theorem headerGet_of_absent (l : List (String × String)) (k : String)
    (h : ∀ p ∈ l, p.1 ≠ k) : headerGet l k = "" := by
  induction l with
  | nil => rfl
  | cons p rest ih =>
    unfold headerGet
    rw [if_neg (h p (by simp))]
    exact ih (fun q hq => h q (by simp [hq]))

/-! ## Concrete requests used in witnesses and counterexamples -/

/-- A JSON request whose body is a (non-object) JSON array. -/
def wReqJsonArr : Request :=
  ⟨"POST", "/items", [], [("Content-Type", "application/json")], "[1,2]"⟩

/-- A form-urlencoded POST whose body holds one field. -/
def wReqForm : Request :=
  ⟨"POST", "/submit", [], [("Content-Type", "application/x-www-form-urlencoded")], "a=1"⟩

/-- A plain-text POST (neither form-urlencoded nor a body-reading branch). -/
def wReqPlain : Request :=
  ⟨"POST", "/note", [], [("Content-Type", "text/plain")], "hello"⟩

/-- An octet-stream upload. -/
def wReqOctet : Request :=
  ⟨"POST", "/blob", [], [("Content-Type", "application/octet-stream")], "rawbytes"⟩

/-- A request without an `X-Request-Id` header. -/
def wReqNoId : Request :=
  ⟨"GET", "/ping", [], [("Content-Type", "text/plain")], ""⟩

/-- A JSON request whose body is not valid JSON. -/
def wReqJsonBad : Request :=
  ⟨"POST", "/items", [], [("Content-Type", "application/json")], "not json"⟩

/-- A JSON request whose body is the JSON document `null`. -/
def wReqJsonNull : Request :=
  ⟨"POST", "/items", [], [("Content-Type", "application/json")], "null"⟩

/-- A JSON request whose body is the JSON array `[1]`. -/
def wReqJsonOne : Request :=
  ⟨"POST", "/items", [], [("Content-Type", "application/json")], "[1]"⟩

/-! ## Claims -/

/-- C1: for every request whose content type is `application/json`, after the
request-capture phase the downstream handler observes a body stream whose
bytes equal the original body exactly, whether or not JSON normalization
succeeded. -/
theorem json_request_body_restored (r : Request)
    (h : contentType r = "application/json") :
    (captureRequest r).2.body = r.body := by
  simp [captureRequest, h]

/-- Witness for C1 at a concrete JSON request. -/
theorem json_request_body_restored_witness :
    contentType wReqJsonArr = "application/json" ∧
    (captureRequest wReqJsonArr).2.body = wReqJsonArr.body :=
  ⟨rfl, json_request_body_restored wReqJsonArr rfl⟩

/-- Claim C2 counterexample: a form-urlencoded POST's body is read by
`ParseForm` during capture but is not restored — the downstream handler sees
an empty stream, refuting byte-for-byte restoration for every body-reading
branch. -/
theorem urlencoded_body_not_restored_cx :
    (captureRequest wReqForm).2.body ≠ wReqForm.body := by
  decide

/-- C2 (amended): the body is restored byte-for-byte except in the
form-urlencoded branch with a body-reading method (POST/PUT/PATCH), where
`ParseForm` consumes the stream without restoring it; every other branch
either restores the read bytes (JSON) or never reads the stream. -/
theorem body_restored_off_urlencoded_write (r : Request)
    (h : ¬(contentType r = "application/x-www-form-urlencoded" ∧
          (r.method = "POST" ∨ r.method = "PUT" ∨ r.method = "PATCH"))) :
    (captureRequest r).2.body = r.body := by
  unfold captureRequest parseForm
  split_ifs <;> simp_all

/-- Witness for the amended C2 at a concrete plain-text request. -/
theorem body_restored_off_urlencoded_write_witness :
    ¬(contentType wReqPlain = "application/x-www-form-urlencoded" ∧
        (wReqPlain.method = "POST" ∨ wReqPlain.method = "PUT" ∨ wReqPlain.method = "PATCH")) ∧
    (captureRequest wReqPlain).2.body = wReqPlain.body :=
  ⟨by decide, body_restored_off_urlencoded_write wReqPlain (by decide)⟩

/-- Claim C3 counterexample: the request-side and response-side dispatches do
not assign every content type the same category — `text/html` is unsupported
on the request side but binary on the response side. -/
theorem req_resp_policy_differ_at_text_html :
    reqPolicy "text/html" ≠ respPolicy "text/html" := by
  decide

/-- C3 (amended): the request-side and response-side content-type dispatches
assign the same policy category to every content type except `audio/mpeg`
and `text/html`, which the response side treats as binary while the request
side treats them as unsupported. -/
theorem req_resp_policy_agree_off_media_exceptions (ct : String)
    (h1 : ct ≠ "audio/mpeg") (h2 : ct ≠ "text/html") :
    reqPolicy ct = respPolicy ct := by
  unfold reqPolicy respPolicy
  split_ifs <;> simp_all

/-- Witness for the amended C3 at `application/json`. -/
theorem req_resp_policy_agree_off_media_exceptions_witness :
    ("application/json" : String) ≠ "audio/mpeg" ∧
    ("application/json" : String) ≠ "text/html" ∧
    reqPolicy "application/json" = respPolicy "application/json" :=
  ⟨by decide, by decide,
    req_resp_policy_agree_off_media_exceptions "application/json" (by decide) (by decide)⟩

/-- Claim C4 counterexample: on the first initialization the global
`SugarLogger` handle is still Go `nil`, so reporting a directory-creation
failure through it dereferences a nil pointer and `InitLogger` aborts
instead of completing. -/
theorem initLogger_nil_logger_mkdir_failure_aborts :
    InitLogger (some "permission denied") none =
      Except.error GoPanic.nilPointerDereference := rfl

/-- C4 (amended): when directory creation fails and the global logger handle
was already assigned by an earlier initialization, the failure is reported
via that logger and `InitLogger` still completes, assigning a fresh global
handle; with a nil handle the report itself panics and initialization
aborts. -/
theorem initLogger_mkdir_failure_reports_and_completes (e : String) (s : SugaredLogger) :
    InitLogger (some e) (some s) = Except.ok (⟨[]⟩, ["日志文件创建失败: " ++ e]) := rfl

/-- C5: for every request whose content type is `application/octet-stream`,
whatever the body holds, the captured parameter value is the literal
placeholder `[BINARY DATA]` (and therefore never the raw body bytes). -/
theorem octet_stream_captures_binary_placeholder (r : Request)
    (h : contentType r = "application/octet-stream") :
    (captureRequest r).1 = ReqParams.str "[BINARY DATA]" := by
  simp [captureRequest, h]

/-- Witness for C5 at a concrete octet-stream request. -/
theorem octet_stream_captures_binary_placeholder_witness :
    contentType wReqOctet = "application/octet-stream" ∧
    (captureRequest wReqOctet).1 = ReqParams.str "[BINARY DATA]" :=
  ⟨rfl, octet_stream_captures_binary_placeholder wReqOctet rfl⟩

/-- C6: for every emitted content type outside the recognized set (the two
structured/form types, the JSON type, and the three binary types), the
logged response-data field is the unsupported-content-type placeholder
containing that content-type string. -/
theorem unknown_response_content_type_placeholder (ct body : String)
    (h1 : ct ≠ "application/json") (h2 : ct ≠ "application/x-www-form-urlencoded")
    (h3 : ct ≠ "multipart/form-data") (h4 : ct ≠ "audio/mpeg")
    (h5 : ct ≠ "text/html") (h6 : ct ≠ "application/octet-stream") :
    respData ct body = "[UNSUPPORTED CONTENT TYPE: " ++ ct ++ "]" := by
  simp [respData, h1, h2, h3, h4, h5, h6]

/-- Witness for C6 at `image/png`. -/
theorem unknown_response_content_type_placeholder_witness :
    ("image/png" : String) ≠ "application/json" ∧
    ("image/png" : String) ≠ "application/x-www-form-urlencoded" ∧
    ("image/png" : String) ≠ "multipart/form-data" ∧
    ("image/png" : String) ≠ "audio/mpeg" ∧
    ("image/png" : String) ≠ "text/html" ∧
    ("image/png" : String) ≠ "application/octet-stream" ∧
    respData "image/png" "pngbytes" = "[UNSUPPORTED CONTENT TYPE: image/png]" :=
  ⟨by decide, by decide, by decide, by decide, by decide, by decide,
    unknown_response_content_type_placeholder "image/png" "pngbytes"
      (by decide) (by decide) (by decide) (by decide) (by decide) (by decide)⟩

/-- C7: the interceptor reads the request id from the inbound `X-Request-Id`
header; when no such header is present the logged request id is the empty
string, with no generated fallback. -/
theorem absent_request_id_logs_empty (r : Request)
    (h : ∀ p ∈ r.headers, p.1 ≠ "X-Request-Id") :
    requestIdOf r = "" :=
  headerGet_of_absent r.headers "X-Request-Id" h

/-- Witness for C7 at a request carrying no `X-Request-Id` header. -/
theorem absent_request_id_logs_empty_witness :
    (∀ p ∈ wReqNoId.headers, p.1 ≠ "X-Request-Id") ∧ requestIdOf wReqNoId = "" :=
  ⟨by decide, absent_request_id_logs_empty wReqNoId (by decide)⟩

/-- C8: in the JSON content-type branch (the only branch that attempts
normalization), an empty body or a body that fails to decode silently skips
normalization: no parsed-params value is attached (`reqParams` stays nil)
and the raw body is still restored. -/
theorem json_empty_or_undecodable_skips_normalization (r : Request)
    (hct : contentType r = "application/json")
    (h : r.body = "" ∨ goUnmarshalMap r.body = none) :
    (captureRequest r).1 = ReqParams.nilv ∧ (captureRequest r).2.body = r.body :=
  captureRequest_json_skip r hct h

/-- Witness for C8 at a JSON request with an unparseable body. -/
theorem json_empty_or_undecodable_skips_normalization_witness :
    contentType wReqJsonBad = "application/json" ∧
    goUnmarshalMap wReqJsonBad.body = none ∧
    ((captureRequest wReqJsonBad).1 = ReqParams.nilv ∧
      (captureRequest wReqJsonBad).2.body = wReqJsonBad.body) :=
  ⟨rfl, rfl,
    json_empty_or_undecodable_skips_normalization wReqJsonBad rfl (Or.inr rfl)⟩

/-- Claim C9 counterexample: the JSON document `null` is syntactically valid
with a non-object top level, yet `json.Unmarshal` into a map accepts it
(leaving the nil map) and re-marshalling attaches the normalized value
`"null"` — a parsed-params value IS attached, refuting the claim for the
null case. -/
theorem json_null_body_attaches_normalized_value :
    parseJsonTop wReqJsonNull.body = some JVal.null ∧
    (captureRequest wReqJsonNull).1 = ReqParams.str "null" :=
  ⟨rfl, rfl⟩

/-- C9 (amended): JSON normalization succeeds only when the body decodes
into a top-level JSON object or the document `null`; for every
syntactically valid body whose top-level value is an array, string, number,
or boolean, no normalized value is attached and the body is still restored,
while a top-level `null` attaches the normalized string `"null"`. -/
theorem json_valid_non_object_non_null_skips_normalization (r : Request) (v : JVal)
    (hct : contentType r = "application/json")
    (hp : parseJsonTop r.body = some v)
    (ho : v.isObj = false) (hn : v.isNull = false) :
    (captureRequest r).1 = ReqParams.nilv ∧ (captureRequest r).2.body = r.body := by
  refine captureRequest_json_skip r hct (Or.inr ?_)
  unfold goUnmarshalMap
  rw [hp]
  cases v <;> simp_all [JVal.isObj, JVal.isNull]

/-- Witness for the amended C9 at a JSON request whose body is the array
`[1]`. -/
theorem json_valid_non_object_non_null_skips_normalization_witness :
    contentType wReqJsonOne = "application/json" ∧
    parseJsonTop wReqJsonOne.body = some (JVal.arr [JVal.num "1"]) ∧
    (JVal.arr [JVal.num "1"]).isObj = false ∧
    (JVal.arr [JVal.num "1"]).isNull = false ∧
    ((captureRequest wReqJsonOne).1 = ReqParams.nilv ∧
      (captureRequest wReqJsonOne).2.body = wReqJsonOne.body) :=
  ⟨rfl, rfl, rfl, rfl,
    json_valid_non_object_non_null_skips_normalization wReqJsonOne
      (JVal.arr [JVal.num "1"]) rfl rfl rfl rfl⟩

/-- C10: the final log-emission step of `HttpLogger` calls `Infof` on the
global `SugarLogger` handle; when that handle is still Go `nil` (InitLogger
never ran) the call dereferences a nil pointer, so emission succeeds exactly
under the precondition that a logger has been assigned. -/
theorem http_logger_emission_requires_initialized_logger (r : Request)
    (handlerName clientIP : String) (rec : RecorderResult) (errorMessage cost : String) :
    runHttpLogger none r handlerName clientIP rec errorMessage cost =
      Except.error GoPanic.nilPointerDereference ∧
    ∀ s : SugaredLogger, ∃ s2,
      runHttpLogger (some s) r handlerName clientIP rec errorMessage cost =
        Except.ok s2 :=
  ⟨rfl, fun _ => ⟨_, rfl⟩⟩

end ZapLog
